import Mathlib

/-!
Verification of the real-time stock data WebSocket server
(`src/websockets/websocket-server.py`).

Timestamps are modelled as integers counting microseconds (Python
`datetime` has microsecond resolution; `timedelta` stores days, seconds
and microseconds).  Prices and percentages are modelled as rationals;
Python's `round(x, 2)` (round half to even at two decimals) is modelled
exactly on rationals by `round2`.
-/

/-- Round half to even to the nearest integer, as Python's built-in
rounding does (exact model over the rationals). -/
def rhe (q : ℚ) : ℤ :=
  if Int.fract q = 1 / 2 then
    (if 2 ∣ ⌊q⌋ then ⌊q⌋ else ⌊q⌋ + 1)
  else round q

/-- Python's `round(x, 2)`: round half to even at two decimal places. -/
def round2 (q : ℚ) : ℚ := (rhe (q * 100) : ℚ) / 100

theorem abs_rhe_sub (q : ℚ) : |(rhe q : ℚ) - q| ≤ 1 / 2 := by
  unfold rhe
  split_ifs with h1 h2
  · have h' : q - (⌊q⌋ : ℚ) = 1 / 2 := by
      rw [Int.self_sub_floor, h1]
    rw [abs_le]
    constructor <;> linarith
  · have h' : q - (⌊q⌋ : ℚ) = 1 / 2 := by
      rw [Int.self_sub_floor, h1]
    rw [abs_le]
    push_cast
    constructor <;> linarith
  · rw [abs_sub_comm]
    exact abs_sub_round q

theorem abs_round2_sub (x : ℚ) : |round2 x - x| ≤ 1 / 200 := by
  unfold round2
  have h := abs_rhe_sub (x * 100)
  have h2 : |((rhe (x * 100) : ℚ)) / 100 - x| = |(rhe (x * 100) : ℚ) - x * 100| / 100 := by
    rw [show ((rhe (x * 100) : ℚ)) / 100 - x = ((rhe (x * 100) : ℚ) - x * 100) / 100 by ring]
    rw [abs_div]
    norm_num
  rw [h2]
  linarith

/-- One timestamped price observation, as appended by
`generate_price_updates` to the per-ticker history deques.  `ts` is in
microseconds. -/
structure PricePoint where
  ts : ℤ
  price : ℚ
  deriving DecidableEq, Repr

/-- Sixty seconds in microseconds. -/
def minuteUs : ℤ := 60000000

/-- The 1-minute lookback of `check_price_alerts` (lines 261-266): scan
`minute_price_history` newest-to-oldest and stop at the first point whose
timestamp is at most `now` minus one minute. -/
def minuteOldPrice (hist : List PricePoint) (now : ℤ) : Option ℚ :=
  (hist.reverse.find? (fun pd => decide (pd.ts ≤ now - minuteUs))).map PricePoint.price

/-- Python's `timedelta.seconds` for a non-negative delta given in
microseconds: whole seconds of the normalized delta, modulo one day
(the days component is discarded).  The server computes
`(current_time - last_alert).seconds`, with `current_time >= last_alert`
under monotone clocks. -/
def tdSeconds (d : ℤ) : ℕ := (d.toNat / 1000000) % 86400

/-- The cooldown test of `check_price_alerts` (line 278):
`last_alert is None or (current_time - last_alert).seconds > 60`. -/
def cooldownPassed (lastAlert : Option ℤ) (now : ℤ) : Bool :=
  match lastAlert with
  | none => true
  | some t => decide (60 < tdSeconds (now - t))

/-- A `price_alert` event as built at lines 281-289 (the human-readable
`message` string is omitted; `change_percent` is stored rounded to two
decimals, as the code does). -/
structure Alert where
  ticker : String
  changePercent : ℚ
  currentPrice : ℚ
  previousPrice : ℚ
  ts : ℤ
  deriving DecidableEq, Repr

/-- The per-ticker body of `check_price_alerts` (lines 252-292): look up
the minute-old price, compute the percent change, and emit an alert iff
the change exceeds 2.0 and the cooldown test passes; on emission
`last_alert_time[ticker]` is set to `now`.  Returns the emitted alert (if
any) and the new `last_alert_time` entry for the ticker. -/
def checkPriceAlerts (tk : String) (hist : List PricePoint) (lastAlert : Option ℤ)
    (newPrice : ℚ) (now : ℤ) : Option Alert × Option ℤ :=
  match minuteOldPrice hist now with
  | none => (none, lastAlert)
  | some old =>
    let change := (newPrice - old) / old * 100
    if 2 < change then
      if cooldownPassed lastAlert now then
        (some ⟨tk, round2 change, newPrice, old, now⟩, some now)
      else (none, lastAlert)
    else (none, lastAlert)

/-- One ticker's price move in `generate_price_updates` (lines 213-221):
`change_percent = direction * volatility * uniform(0.1, 1.0)` and
`new_price = round(current_price * (1 + change_percent), 2)`.
`s` is the drawn direction, `vol` the drawn volatility and `damp` the
drawn damping factor. -/
def genNewPrice (p vol damp s : ℚ) : ℚ :=
  round2 (p * (1 + s * vol * damp))

theorem find?_eq_head?_filter {α : Type} (p : α → Bool) (l : List α) :
    l.find? p = (l.filter p).head? := by
  induction l with
  | nil => rfl
  | cons a l ih =>
    rw [List.find?_cons, List.filter_cons]
    cases h : p a
    · rw [if_neg (by simp [h])]
      exact ih
    · simp [h]

/-- The newest-to-oldest scan stopping at the first qualifying point is
the last qualifying point of the buffer in chronological order. -/
theorem reverse_find?_eq_filter_getLast? {α : Type} (p : α → Bool) (l : List α) :
    l.reverse.find? p = (l.filter p).getLast? := by
  rw [find?_eq_head?_filter, List.filter_reverse, List.head?_reverse]

theorem minuteOldPrice_eq_filter (hist : List PricePoint) (now : ℤ) :
    minuteOldPrice hist now =
      ((hist.filter (fun pd => decide (pd.ts ≤ now - minuteUs))).getLast?).map
        PricePoint.price := by
  unfold minuteOldPrice
  rw [reverse_find?_eq_filter_getLast?]

/-- Five minutes in microseconds. -/
def fiveMinUs : ℤ := 300000000

/-- The collection loop of `calculate_five_minute_averages` (lines
319-324): walk the ticker's `price_history` and keep every price whose
timestamp is at least `now` minus five minutes. -/
def recentPrices : List PricePoint → ℤ → List ℚ
  | [], _ => []
  | pd :: rest, cutoff =>
    if cutoff ≤ pd.ts then pd.price :: recentPrices rest cutoff
    else recentPrices rest cutoff

theorem recentPrices_eq_filter (hist : List PricePoint) (cutoff : ℤ) :
    recentPrices hist cutoff =
      (hist.filter (fun pd => decide (cutoff ≤ pd.ts))).map PricePoint.price := by
  induction hist with
  | nil => rfl
  | cons pd rest ih =>
    rw [recentPrices, List.filter_cons]
    by_cases h : cutoff ≤ pd.ts
    · simp [h, ih]
    · simp [h, ih]

/-- The aggregate row inserted by `calculate_five_minute_averages`
(lines 330-346): stored price is `round(avg_price, 2)` and the stored
quantity is the number of contributing samples.  The special ticker
string `<ticker>_5MIN_AVG` and side `"average"` are fixed and omitted. -/
structure AvgRecord where
  price : ℚ
  sampleCount : ℕ
  ts : ℤ
  deriving DecidableEq, Repr

/-- One ticker's step of `calculate_five_minute_averages` (lines
318-346): collect the prices in the trailing five-minute window; if any
exist, write the rounded arithmetic mean and the sample count, else skip
the ticker (no record). -/
def fiveMinuteRecord (hist : List PricePoint) (now : ℤ) : Option AvgRecord :=
  let rp := recentPrices hist (now - fiveMinUs)
  if rp = [] then none
  else some ⟨round2 (rp.sum / rp.length), rp.length, now⟩

/-- One entry of the `price_history` reply built by
`handle_client_message` (lines 132-140). -/
structure HEntry where
  ts : ℤ
  price : ℚ
  changePercent : ℚ
  deriving DecidableEq, Repr

/-- The annotation loop of the `get_history` handler (lines 133-140)
after its first iteration: `prev` is the price of the immediately
preceding buffer point. -/
def annotateFrom (prev : ℚ) : List PricePoint → List HEntry
  | [] => []
  | pd :: rest =>
    ⟨pd.ts, pd.price, (pd.price - prev) / prev * 100⟩ :: annotateFrom pd.price rest

/-- The full annotation loop (lines 133-140): for index `i > 0` the
previous price is `list[i-1]`, and for `i = 0` the point's own price is
used as its previous price. -/
def annotateHistory : List PricePoint → List HEntry
  | [] => []
  | pd :: rest => annotateFrom pd.price (pd :: rest)

/-- The `price_history` payload (line 145): `history_data[-20:]`, the
last twenty annotated entries.  The cap is a literal in the handler; the
request carries no count field. -/
def historyReply (buf : List PricePoint) : List HEntry :=
  (annotateHistory buf).drop ((annotateHistory buf).length - 20)

theorem annotateFrom_length (prev : ℚ) (l : List PricePoint) :
    (annotateFrom prev l).length = l.length := by
  induction l generalizing prev with
  | nil => rfl
  | cons pd rest ih => rw [annotateFrom]; simp [ih]

theorem annotateHistory_length (l : List PricePoint) :
    (annotateHistory l).length = l.length := by
  cases l with
  | nil => rfl
  | cons pd rest => rw [annotateHistory, annotateFrom_length]

theorem annotateFrom_get?_zero (prev : ℚ) (l : List PricePoint) (b : PricePoint)
    (hb : l.get? 0 = some b) :
    (annotateFrom prev l).get? 0 = some ⟨b.ts, b.price, (b.price - prev) / prev * 100⟩ := by
  cases l with
  | nil => simp at hb
  | cons pd rest =>
    simp only [List.get?_cons_zero, Option.some.injEq] at hb
    subst hb
    rfl

theorem annotateFrom_get?_succ (l : List PricePoint) (prev : ℚ) (i : ℕ) (a b : PricePoint)
    (ha : l.get? i = some a) (hb : l.get? (i + 1) = some b) :
    (annotateFrom prev l).get? (i + 1) =
      some ⟨b.ts, b.price, (b.price - a.price) / a.price * 100⟩ := by
  induction l generalizing prev i with
  | nil => simp at ha
  | cons pd rest ih =>
    cases i with
    | zero =>
      simp only [List.get?_cons_zero, Option.some.injEq] at ha
      subst ha
      simp only [List.get?_cons_succ] at hb
      rw [annotateFrom]
      simpa using annotateFrom_get?_zero pd.price rest b hb
    | succ j =>
      simp only [List.get?_cons_succ] at ha hb
      rw [annotateFrom]
      simpa using ih pd.price j ha hb

/-- Client connections are identified by opaque handles, modelled as
naturals. -/
abbrev Client := ℕ

/-- The `self.subscriptions` dictionary: a partial map from connected
clients to their subscribed ticker sets.  A client that has never been
through a `subscribe`/`unsubscribe` handler has no entry (the
`defaultdict` creates entries only on item access). -/
abbrev Subs := Client → Option (Finset String)

/-- The mutable server state relevant to routing: `self.clients` and
`self.subscriptions` (lines 29-30). -/
structure ServerState where
  clients : Finset Client
  subs : Subs

/-- The `subscribe` branch (lines 109-111):
`self.subscriptions[websocket].update(tickers)` — the `defaultdict`
materialises an empty set for a missing key, then unions the tickers. -/
def subsSubscribe (subs : Subs) (c : Client) (ts : List String) : Subs :=
  fun x => if x = c then some ((subs c).getD ∅ ∪ ts.toFinset) else subs x

/-- The `unsubscribe` branch (lines 119-122): the `defaultdict`
materialises an empty set for a missing key, then discards each listed
ticker. -/
def subsUnsubscribe (subs : Subs) (c : Client) (ts : List String) : Subs :=
  fun x => if x = c then some ((subs c).getD ∅ \ ts.toFinset) else subs x

/-- The deletion in `unregister_client` (lines 99-100):
`if websocket in self.subscriptions: del self.subscriptions[websocket]`. -/
def subsDelete (subs : Subs) (c : Client) : Subs :=
  fun x => if x = c then none else subs x

/-- `unregister_client` (lines 96-101): drop the client from the active
set and delete its subscription entry. -/
def unregisterClient (s : ServerState) (c : Client) : ServerState :=
  ⟨s.clients.erase c, subsDelete s.subs c⟩

/-- Messages a client can send, after the JSON decode step of
`handle_client_message`: a frame that fails to decode, one of the three
known message types, or any other decoded value (missing or unknown
`type`).  `getHistory none` stands for a `get_history` without a usable
`ticker` field (the handler tests `if ticker and ...`). -/
inductive InMessage where
  | invalidJson
  | subscribe (ts : List String)
  | unsubscribe (ts : List String)
  | getHistory (t : Option String)
  | other
  deriving DecidableEq, Repr

/-- Messages the server sends to one client from the paths modelled
here (payload details irrelevant to the claims are omitted). -/
inductive OutMessage where
  | errorMsg (text : String)
  | subscriptionConfirmed (ts : Finset String)
  | unsubscriptionConfirmed (ts : List String)
  | priceHistory (t : String) (data : List HEntry)
  | currentPrices
  deriving DecidableEq

/-- Lookup in the `price_history` dictionary (`ticker in
self.price_history` membership does not create a key). -/
def histFind : List (String × List PricePoint) → String → Option (List PricePoint)
  | [], _ => none
  | (k, v) :: rest, t => if k = t then some v else histFind rest t

/-- `handle_client_message` (lines 103-156): dispatch on the decoded
message type.  A `json.JSONDecodeError` is answered with an error
message; a `subscribe` unions and confirms with the resulting full set;
an `unsubscribe` discards and confirms with the request's list; a
`get_history` replies only when the ticker is truthy and known; any
other type falls through with no reply.  Returns the new state and the
replies sent, each addressed to a client. -/
def handleClientMessage (s : ServerState) (hist : List (String × List PricePoint))
    (c : Client) (m : InMessage) : ServerState × List (Client × OutMessage) :=
  match m with
  | .invalidJson => (s, [(c, .errorMsg "Invalid JSON format")])
  | .subscribe ts =>
    let subs2 := subsSubscribe s.subs c ts
    (⟨s.clients, subs2⟩, [(c, .subscriptionConfirmed ((subs2 c).getD ∅))])
  | .unsubscribe ts =>
    (⟨s.clients, subsUnsubscribe s.subs c ts⟩, [(c, .unsubscriptionConfirmed ts)])
  | .getHistory t? =>
    match t? with
    | none => (s, [])
    | some t =>
      if t = "" then (s, [])
      else
        match histFind hist t with
        | none => (s, [])
        | some buf => (s, [(c, .priceHistory t (historyReply buf))])
  | .other => (s, [])

/-- `register_client` (lines 79-85): add the connection to
`self.clients` and send it the current-price snapshot.  The
subscription map is not touched. -/
def registerClient (s : ServerState) (c : Client) : ServerState × List (Client × OutMessage) :=
  (⟨insert c s.clients, s.subs⟩, [(c, .currentPrices)])

/-- Membership of a client in the target set of `broadcast_message`
(lines 167-181).  With no clients nothing is sent; a falsy
`target_tickers` (absent or the empty list) selects every client; a
non-empty `target_tickers` selects the clients that have a subscription
entry intersecting the tickers, or an empty entry. -/
def receivesBroadcast (s : ServerState) (tt : Option (List String)) (c : Client) : Bool :=
  if s.clients = ∅ then false
  else
    match tt with
    | none => decide (c ∈ s.clients)
    | some [] => decide (c ∈ s.clients)
    | some (t0 :: trest) =>
      match s.subs c with
      | none => false
      | some e => (t0 :: trest).any (fun t => decide (t ∈ e)) || decide (e = ∅)

/-- Recipients of a `price_update` batch: `generate_price_updates`
(lines 239-243) calls `broadcast_message` without `target_tickers`, so
the batch's tickers play no role in routing. -/
def priceUpdateRecipient (s : ServerState) (c : Client) : Bool :=
  receivesBroadcast s none c

/-- Recipients of a `price_alert` for one ticker: `check_price_alerts`
(line 291) calls `broadcast_message(alert_message, [ticker])`. -/
def alertRecipient (s : ServerState) (tk : String) (c : Client) : Bool :=
  receivesBroadcast s (some [tk]) c

/-- The failure handling of `broadcast_message` (lines 183-195): the
send loop runs over the whole target set collecting the clients whose
send raised, and only afterwards each collected client is unregistered.
`fails` lists the clients whose transport send fails during this pass. -/
def broadcastStep (s : ServerState) (tt : Option (List String)) (fails : List Client) :
    ServerState :=
  (fails.filter (fun c => receivesBroadcast s tt c)).foldl unregisterClient s

/-- Events that touch the routing state: a connection registering, an
inbound message, a broadcast pass (with the clients whose sends fail),
and a disconnect. -/
inductive Event where
  | connect (c : Client)
  | message (c : Client) (m : InMessage)
  | broadcast (tt : Option (List String)) (fails : List Client)
  | disconnect (c : Client)

/-- One server step per event. -/
def stepEvent (hist : List (String × List PricePoint)) (s : ServerState) : Event → ServerState
  | .connect c => (registerClient s c).1
  | .message c m => (handleClientMessage s hist c m).1
  | .broadcast tt fails => broadcastStep s tt fails
  | .disconnect c => unregisterClient s c

/-- The state at process start: no clients, no subscription entries. -/
def initState : ServerState := ⟨∅, fun _ => none⟩

/-- Run a sequence of events from the initial state. -/
def runTrace (hist : List (String × List PricePoint)) (tr : List Event) : ServerState :=
  tr.foldl (stepEvent hist) initState

/-- Whether an inbound message is a subscribe or unsubscribe. -/
def isSubMsg : InMessage → Bool
  | .subscribe _ => true
  | .unsubscribe _ => true
  | _ => false

theorem foldl_unregister_clients (l : List Client) (s : ServerState) (c : Client) :
    c ∈ (l.foldl unregisterClient s).clients ↔ c ∈ s.clients ∧ c ∉ l := by
  induction l generalizing s with
  | nil => simp
  | cons a l ih =>
    rw [List.foldl_cons, ih]
    simp only [unregisterClient, Finset.mem_erase, List.mem_cons]
    constructor
    · rintro ⟨⟨hne, hc⟩, hl⟩
      exact ⟨hc, by rintro (rfl | h) <;> [exact hne rfl; exact hl h]⟩
    · rintro ⟨hc, hnl⟩
      exact ⟨⟨fun h => hnl (Or.inl h), hc⟩, fun h => hnl (Or.inr h)⟩

theorem foldl_unregister_subs (l : List Client) (s : ServerState) (c : Client) :
    (l.foldl unregisterClient s).subs c = if c ∈ l then none else s.subs c := by
  induction l generalizing s with
  | nil => simp
  | cons a l ih =>
    rw [List.foldl_cons, ih]
    simp only [unregisterClient, subsDelete, List.mem_cons]
    by_cases hca : c = a
    · simp [hca]
    · by_cases hcl : c ∈ l
      · simp [hca, hcl]
      · simp [hca, hcl]

theorem round2_eval (x : ℚ) (hne : Int.fract (x * 100) ≠ 1 / 2) :
    round2 x = (round (x * 100) : ℚ) / 100 := by
  unfold round2 rhe
  rw [if_neg hne]

/-- When the code's cooldown test passes and time is monotone, strictly
more than sixty (in fact at least sixty-one) seconds really have
elapsed, so the code never emits two alerts for a ticker within sixty
seconds of each other. -/
theorem tdSeconds_gt_sixty (d : ℤ) (hd : 0 ≤ d) (h : 60 < tdSeconds d) : 60000000 < d := by
  unfold tdSeconds at h
  have hmle : d.toNat / 1000000 % 86400 ≤ d.toNat / 1000000 := Nat.mod_le _ _
  have h2 : 61 ≤ d.toNat / 1000000 := lt_of_lt_of_le h hmle
  have h4 : 61 * 1000000 ≤ d.toNat := (Nat.le_div_iff_mul_le (by norm_num)).mp h2
  have h6 : (61000000 : ℤ) ≤ d := by
    rw [← Int.toNat_of_nonneg hd]
    exact_mod_cast h4
  linarith

/-- A client outside the active set with no subscription entry is
selected by no broadcast, whatever the target tickers. -/
theorem receivesBroadcast_eq_false (s : ServerState) (tt : Option (List String)) (c : Client)
    (hc : c ∉ s.clients) (hs : s.subs c = none) : receivesBroadcast s tt c = false := by
  unfold receivesBroadcast
  split_ifs with h
  · rfl
  · cases tt with
    | none => exact decide_eq_false hc
    | some ts =>
      cases ts with
      | nil => exact decide_eq_false hc
      | cons t0 trest => rw [hs]

theorem handle_state_eq_of_not_sub (s : ServerState) (hist : List (String × List PricePoint))
    (c : Client) (m : InMessage) (h : isSubMsg m = false) :
    (handleClientMessage s hist c m).1 = s := by
  cases m with
  | subscribe ts => simp [isSubMsg] at h
  | unsubscribe ts => simp [isSubMsg] at h
  | invalidJson => rfl
  | other => rfl
  | getHistory t? =>
    cases t? with
    | none => rfl
    | some t =>
      by_cases ht : t = ""
      · simp [handleClientMessage, ht]
      · cases hf : histFind hist t <;> simp [handleClientMessage, ht, hf]

theorem handle_subs_other (s : ServerState) (hist : List (String × List PricePoint))
    (c : Client) (m : InMessage) (x : Client) (hx : x ≠ c) :
    (handleClientMessage s hist c m).1.subs x = s.subs x := by
  cases m with
  | subscribe ts => simp [handleClientMessage, subsSubscribe, hx]
  | unsubscribe ts => simp [handleClientMessage, subsUnsubscribe, hx]
  | invalidJson => rfl
  | other => rfl
  | getHistory t? => rw [handle_state_eq_of_not_sub s hist c (.getHistory t?) rfl]

theorem step_subs_none (hist : List (String × List PricePoint)) (s : ServerState) (e : Event)
    (c : Client) (hnone : s.subs c = none)
    (hmsg : ∀ m, e = Event.message c m → isSubMsg m = false) :
    (stepEvent hist s e).subs c = none := by
  cases e with
  | connect a => exact hnone
  | message a m =>
    by_cases hac : a = c
    · subst hac
      have hm := hmsg m rfl
      cases m with
      | subscribe ts => simp [isSubMsg] at hm
      | unsubscribe ts => simp [isSubMsg] at hm
      | invalidJson => exact hnone
      | other => exact hnone
      | getHistory t? =>
        show (handleClientMessage s hist a (.getHistory t?)).1.subs a = none
        rw [handle_state_eq_of_not_sub s hist a (.getHistory t?) rfl]
        exact hnone
    · show (handleClientMessage s hist a m).1.subs c = none
      rw [handle_subs_other s hist a m c (fun hca => hac hca.symm)]
      exact hnone
  | broadcast tt fails =>
    show (broadcastStep s tt fails).subs c = none
    unfold broadcastStep
    rw [foldl_unregister_subs]
    split_ifs <;> [rfl; exact hnone]
  | disconnect a =>
    show (unregisterClient s a).subs c = none
    simp only [unregisterClient, subsDelete]
    split_ifs <;> [rfl; exact hnone]

theorem runTrace_subs_none_aux (hist : List (String × List PricePoint)) (tr : List Event)
    (s : ServerState) (c : Client) (hnone : s.subs c = none)
    (h : ∀ m, Event.message c m ∈ tr → isSubMsg m = false) :
    (tr.foldl (stepEvent hist) s).subs c = none := by
  induction tr generalizing s with
  | nil => exact hnone
  | cons e tr ih =>
    rw [List.foldl_cons]
    refine ih _ ?_ ?_
    · refine step_subs_none hist s e c hnone ?_
      intro m hm
      exact h m (by rw [← hm]; exact List.mem_cons_self e tr)
    · intro m hm
      exact h m (List.mem_cons_of_mem e hm)

/-- C1, counterexample.  The claim asserts a client receives a
`price_update` batch iff its subscription set is empty or intersects the
batch's tickers, and that an empty subscription set receives all alerts.
On the code, `generate_price_updates` broadcasts `price_update` with no
`target_tickers`, so a client whose subscription set is the non-empty
`{"ZZZ"}` — disjoint from a batch for `AAPL` — still receives the batch;
and a freshly connected client with no subscription entry (the
"receives all" default) receives no `price_alert` at all, since the
alert routing iterates only `subscriptions.items()`. -/
theorem c1_counterexample :
    priceUpdateRecipient ⟨{0}, fun c => if c = 0 then some {"ZZZ"} else none⟩ 0 = true
  ∧ (⟨{0}, fun c => if c = 0 then some {"ZZZ"} else none⟩ : ServerState).subs 0 = some {"ZZZ"}
  ∧ ¬(({"ZZZ"} : Finset String) = ∅ ∨ ("AAPL" : String) ∈ ({"ZZZ"} : Finset String))
  ∧ alertRecipient ⟨{0}, fun _ => none⟩ "AAPL" 0 = false := by
  refine ⟨?_, rfl, by decide, ?_⟩
  · norm_num [priceUpdateRecipient, receivesBroadcast]
  · norm_num [alertRecipient, receivesBroadcast]

/-- C1, amended: a `price_update` batch is delivered to every connected
client regardless of subscriptions (the broadcast is invoked with no
target tickers, so the batch's tickers play no role); a `price_alert`
for ticker `tk` is delivered exactly to the clients that possess a
subscription entry which contains `tk` or is empty, provided at least
one client is connected — a client with no subscription entry receives
every `price_update` but no `price_alert`. -/
theorem c1_broadcast_routing (s : ServerState) (tk : String) (c : Client) :
    (priceUpdateRecipient s c = true ↔ c ∈ s.clients)
  ∧ (alertRecipient s tk c = true ↔
      s.clients ≠ ∅ ∧ ∃ e, s.subs c = some e ∧ (tk ∈ e ∨ e = ∅)) := by
  constructor
  · unfold priceUpdateRecipient receivesBroadcast
    by_cases h : s.clients = ∅
    · simp [h]
    · simp [h]
  · unfold alertRecipient receivesBroadcast
    by_cases h : s.clients = ∅
    · simp [h]
    · cases hs : s.subs c with
      | none => simp [h, hs]
      | some e => simp [h, hs, List.any, or_comm]

/-- C3, counterexample.  For the buffered sequence
[100.00 at t0, 103.00 at t0+30s, 103.50 at t0+61s], the claim says the
lookback at t0+61s returns the t0+30s point (103.00) and that no alert
fires.  The code's scan stops at the first point with timestamp at most
now minus 60s, which is the t0 point (100.00), and the resulting 3.5%
change does emit an alert. -/
theorem c3_counterexample :
    minuteOldPrice [⟨0, 100⟩, ⟨30000000, 103⟩, ⟨61000000, 207/2⟩] 61000000 = some 100
  ∧ minuteOldPrice [⟨0, 100⟩, ⟨30000000, 103⟩, ⟨61000000, 207/2⟩] 61000000 ≠ some 103
  ∧ (checkPriceAlerts "X" [⟨0, 100⟩, ⟨30000000, 103⟩, ⟨61000000, 207/2⟩] none
      (207/2) 61000000).1.isSome = true := by
  refine ⟨?_, ?_, ?_⟩
  · norm_num [minuteOldPrice, minuteUs, List.find?]
  · norm_num [minuteOldPrice, minuteUs, List.find?]
  · norm_num [checkPriceAlerts, minuteOldPrice, minuteUs, List.find?, cooldownPassed]

/-- C3, amended: on that buffer the 60-second lookback at t0+61s
returns the t0 point with price 100.00 (the only point with timestamp
at most t0+1s), the one-minute change is 3.5%, and with no prior alert
an alert is emitted with `last_alert_time` set to now. -/
theorem c3_lookback_alert :
    minuteOldPrice [⟨0, 100⟩, ⟨30000000, 103⟩, ⟨61000000, 207/2⟩] 61000000 = some 100
  ∧ ((207 : ℚ)/2 - 100) / 100 * 100 = 7/2
  ∧ checkPriceAlerts "X" [⟨0, 100⟩, ⟨30000000, 103⟩, ⟨61000000, 207/2⟩] none (207/2) 61000000 =
      (some ⟨"X", 7/2, 207/2, 100, 61000000⟩, some 61000000) := by
  refine ⟨?_, by norm_num, ?_⟩
  · norm_num [minuteOldPrice, minuteUs, List.find?]
  · norm_num [checkPriceAlerts, minuteOldPrice, minuteUs, List.find?, cooldownPassed]
    rw [round2_eval]
    · rw [round_eq]; norm_num
    · rw [Int.fract]; norm_num

/-- C4, counterexample.  The claim asserts the tick output is always
strictly positive and within two percent of the previous price, for
every positive previous price and admissible draws.  Rounding to two
decimals breaks both: from price 175.30 an admissible upward draw of
about 1.9997% lands on 178.8055, which rounds to 178.81 — a 2.0023%
move; and from price 0.004 the maximal downward draw gives 0.00392,
which rounds to 0 (the code has no positive floor). -/
theorem c4_counterexample :
    genNewPrice (1753/10) (7011/350600) 1 1 = 17881/100
  ∧ ((1:ℚ)/200 ≤ 7011/350600 ∧ (7011 : ℚ)/350600 ≤ 1/50)
  ∧ ¬(|(17881 : ℚ)/100 - 1753/10| ≤ (1753/10) * (2/100))
  ∧ genNewPrice (1/250) (1/50) 1 (-1) = 0
  ∧ ¬(0 < genNewPrice (1/250) (1/50) 1 (-1)) := by
  have h1 : genNewPrice (1753/10) (7011/350600) 1 1 = 17881/100 := by
    rw [genNewPrice, round2_eval]
    · rw [round_eq]; norm_num
    · rw [Int.fract]; norm_num
  have h2 : genNewPrice (1/250) (1/50) 1 (-1) = 0 := by
    rw [genNewPrice, round2_eval]
    · rw [round_eq]; norm_num
    · rw [Int.fract]; norm_num
  refine ⟨h1, by norm_num, ?_, h2, by rw [h2]; norm_num⟩
  rw [show (17881 : ℚ)/100 - 1753/10 = 351/100 by norm_num,
    abs_of_nonneg (by norm_num : (0:ℚ) ≤ 351/100)]
  norm_num

/-- C4, amended: for any previous price of at least one cent and
admissible draws (volatility in [0.5%, 2%], damping in [0.1, 1],
direction ±1), the tick result is strictly positive and within two
percent of the previous price up to the half-cent rounding slack:
|new - p| ≤ 0.02 p + 0.005.  The exact ±2% bound holds for the
pre-rounding value only, and the code has no positivity clamp. -/
theorem c4_price_bounds (p vol damp s : ℚ) (hp : 1/100 ≤ p) (hv1 : 1/200 ≤ vol)
    (hv2 : vol ≤ 1/50) (hd1 : 1/10 ≤ damp) (hd2 : damp ≤ 1) (hs : s = 1 ∨ s = -1) :
    0 < genNewPrice p vol damp s ∧
    |genNewPrice p vol damp s - p| ≤ p * (2/100) + 1/200 := by
  have hvol0 : 0 ≤ vol := le_trans (by norm_num) hv1
  have hd0 : 0 ≤ damp := le_trans (by norm_num) hd1
  have hp0 : 0 < p := lt_of_lt_of_le (by norm_num) hp
  have habs : |s * vol * damp| ≤ (2/100 : ℚ) := by
    have hvd : vol * damp ≤ 2/100 := by
      calc vol * damp ≤ (1/50) * 1 := by
            exact mul_le_mul hv2 hd2 hd0 (by norm_num)
        _ = 2/100 := by norm_num
    rcases hs with rfl | rfl
    · rw [show (1:ℚ) * vol * damp = vol * damp by ring,
        abs_of_nonneg (mul_nonneg hvol0 hd0)]
      exact hvd
    · rw [show (-1:ℚ) * vol * damp = -(vol * damp) by ring, abs_neg,
        abs_of_nonneg (mul_nonneg hvol0 hd0)]
      exact hvd
  have hxd : |p * (1 + s * vol * damp) - p| ≤ p * (2/100) := by
    rw [show p * (1 + s * vol * damp) - p = p * (s * vol * damp) by ring, abs_mul,
      abs_of_pos hp0]
    exact mul_le_mul_of_nonneg_left habs (le_of_lt hp0)
  have hr := abs_round2_sub (p * (1 + s * vol * damp))
  have hmain : |genNewPrice p vol damp s - p| ≤ p * (2/100) + 1/200 := by
    have hsplit : genNewPrice p vol damp s - p =
        (round2 (p * (1 + s * vol * damp)) - p * (1 + s * vol * damp)) +
        (p * (1 + s * vol * damp) - p) := by
      rw [genNewPrice]; ring
    calc |genNewPrice p vol damp s - p|
        ≤ |round2 (p * (1 + s * vol * damp)) - p * (1 + s * vol * damp)| +
          |p * (1 + s * vol * damp) - p| := by
          rw [hsplit]; exact abs_add _ _
      _ ≤ 1/200 + p * (2/100) := add_le_add hr hxd
      _ = p * (2/100) + 1/200 := by ring
  refine ⟨?_, hmain⟩
  have hlow : p - (p * (2/100) + 1/200) ≤ genNewPrice p vol damp s := by
    have := abs_le.mp hmain
    linarith [this.1]
  linarith

/-- C4, witness for the amended bound at price 1 with an upward draw. -/
theorem c4_price_bounds_witness :
    ((1:ℚ)/100 ≤ 1 ∧ (1:ℚ)/200 ≤ 1/100 ∧ (1:ℚ)/100 ≤ 1/50 ∧
      (1:ℚ)/10 ≤ 1/2 ∧ (1:ℚ)/2 ≤ 1)
  ∧ (0 < genNewPrice 1 (1/100) (1/2) 1 ∧
      |genNewPrice 1 (1/100) (1/2) 1 - 1| ≤ 1 * (2/100) + 1/200) :=
  ⟨by norm_num,
   c4_price_bounds 1 (1/100) (1/2) 1 (by norm_num) (by norm_num) (by norm_num)
     (by norm_num) (by norm_num) (Or.inl rfl)⟩

/-- C5, counterexample.  With three in-window samples 1.00, 1.00, 1.01
the arithmetic mean is 301/300, but the stored record holds
`round(avg, 2) = 1.00`, which is not equal to the mean. -/
theorem c5_counterexample :
    fiveMinuteRecord [⟨0, 1⟩, ⟨1, 1⟩, ⟨2, 101/100⟩] 2 = some ⟨1, 3, 2⟩
  ∧ ((1 : ℚ) + 1 + 101/100) / 3 = 301/300
  ∧ (1 : ℚ) ≠ 301/300 := by
  refine ⟨?_, by norm_num, by norm_num⟩
  rw [fiveMinuteRecord]
  rw [show recentPrices [⟨0, 1⟩, ⟨1, 1⟩, ⟨2, 101/100⟩] (2 - fiveMinUs) = [1, 1, 101/100] by
    norm_num [recentPrices, fiveMinUs]]
  rw [if_neg (by simp)]
  rw [round2_eval]
  · rw [round_eq]; norm_num
  · rw [Int.fract]; norm_num

/-- C5, amended: each cycle uses exactly the buffered points with
timestamp at least now minus five minutes; a non-empty window of N
samples yields a record whose stored price is the arithmetic mean of
exactly those N prices rounded to two decimals and whose sample count
is N; an empty window writes nothing. -/
theorem c5_aggregation (hist : List PricePoint) (now : ℤ) :
    (hist.filter (fun pd => decide (now - fiveMinUs ≤ pd.ts)) ≠ [] →
      fiveMinuteRecord hist now = some
        ⟨round2 ((((hist.filter (fun pd => decide (now - fiveMinUs ≤ pd.ts))).map
            PricePoint.price).sum /
            ((hist.filter (fun pd => decide (now - fiveMinUs ≤ pd.ts))).length : ℚ))),
          (hist.filter (fun pd => decide (now - fiveMinUs ≤ pd.ts))).length, now⟩)
  ∧ (hist.filter (fun pd => decide (now - fiveMinUs ≤ pd.ts)) = [] →
      fiveMinuteRecord hist now = none) := by
  constructor
  · intro hne
    rw [fiveMinuteRecord]
    simp only [recentPrices_eq_filter]
    rw [if_neg (by simpa using hne)]
    simp [List.length_map]
  · intro hemp
    rw [fiveMinuteRecord]
    simp only [recentPrices_eq_filter, hemp]
    simp

/-- C5, witness: a single in-window sample of price 2 is stored with
mean 2 and sample count 1. -/
theorem c5_aggregation_witness : fiveMinuteRecord [⟨0, (2:ℚ)⟩] 0 = some ⟨2, 1, 0⟩ := by
  have h := (c5_aggregation [⟨0, (2:ℚ)⟩] 0).1 (by norm_num [List.filter, fiveMinUs])
  rw [h]
  norm_num [List.filter, fiveMinUs]
  rw [round2_eval]
  · rw [round_eq]; norm_num
  · rw [Int.fract]; norm_num

/-- C2, counterexample.  The claim requires an alert whenever the
change exceeds 2% and more than 60 seconds have elapsed since the last
alert.  The code tests `(current_time - last_alert).seconds > 60`, the
whole-second component of the timedelta, so at 60.5 elapsed seconds —
strictly more than 60 seconds — the component is 60 and no alert is
emitted, with `last_alert_time` left unchanged, although a minute-old
price exists and the change is 3.5%. -/
theorem c2_counterexample :
    checkPriceAlerts "AAPL" [⟨0, 100⟩] (some 500000) (207/2) 61000000 = (none, some 500000)
  ∧ minuteOldPrice [⟨0, 100⟩] 61000000 = some 100
  ∧ 2 < ((207 : ℚ)/2 - 100) / 100 * 100
  ∧ (60000000 : ℤ) < 61000000 - 500000 := by
  refine ⟨?_, ?_, by norm_num, by norm_num⟩
  · norm_num [checkPriceAlerts, minuteOldPrice, minuteUs, List.find?, cooldownPassed, tdSeconds]
    decide
  · norm_num [minuteOldPrice, minuteUs, List.find?]

/-- C2, amended: an alert is emitted iff the 60-second lookback yields
a price (equivalently, the last buffered point with timestamp at most
now minus 60s), the percent change over it exceeds 2.0, and the
cooldown test passes — where the code's cooldown requires the
whole-second component of the elapsed timedelta (seconds modulo one
day, fractional seconds discarded) to exceed 60, i.e. at least 61 whole
seconds within the day, rather than any elapsed time over 60 seconds.
On emission the alert carries the rounded change, the new and the
minute-old price, and `last_alert_time` is set to now; otherwise
`last_alert_time` is unchanged.  When the cooldown passes under a
monotone clock, strictly more than 60000000 microseconds have really
elapsed, so at most one alert per ticker occurs in any 60-second
window. -/
theorem c2_alert_emission (tk : String) (hist : List PricePoint) (la : Option ℤ)
    (np : ℚ) (now : ℤ) :
    ((checkPriceAlerts tk hist la np now).1.isSome = true ↔
      ∃ old, minuteOldPrice hist now = some old ∧ 2 < (np - old) / old * 100 ∧
        cooldownPassed la now = true)
  ∧ (minuteOldPrice hist now =
      ((hist.filter (fun pd => decide (pd.ts ≤ now - minuteUs))).getLast?).map PricePoint.price)
  ∧ (∀ old, minuteOldPrice hist now = some old → 2 < (np - old) / old * 100 →
      cooldownPassed la now = true →
      checkPriceAlerts tk hist la np now =
        (some ⟨tk, round2 ((np - old) / old * 100), np, old, now⟩, some now))
  ∧ ((checkPriceAlerts tk hist la np now).1 = none →
      (checkPriceAlerts tk hist la np now).2 = la)
  ∧ (∀ t, la = some t → 0 ≤ now - t →
      cooldownPassed la now = true → 60000000 < now - t) := by
  refine ⟨?_, minuteOldPrice_eq_filter hist now, ?_, ?_, ?_⟩
  · cases hm : minuteOldPrice hist now with
    | none => simp [checkPriceAlerts, hm]
    | some old =>
      simp only [checkPriceAlerts, hm]
      split_ifs with h1 h2
      · simp [h1, h2]
      · simp [h2]
      · simp [h1]
  · intro old hm hch hcd
    simp only [checkPriceAlerts, hm]
    split_ifs
    rfl
  · cases hm : minuteOldPrice hist now with
    | none => simp [checkPriceAlerts, hm]
    | some old =>
      simp only [checkPriceAlerts, hm]
      split_ifs with h1 h2
      · intro h
        exact absurd h (by simp)
      · intro _
        rfl
      · intro _
        rfl
  · intro t hla hge hcd
    rw [hla] at hcd
    exact tdSeconds_gt_sixty (now - t) hge (of_decide_eq_true hcd)

/-- C2, witness: with a minute-old price of 100, a new price of 103.5
and no prior alert, the alert is emitted and the cooldown timestamp
set. -/
theorem c2_alert_emission_witness :
    checkPriceAlerts "AAPL" [⟨0, 100⟩] none (207/2) 61000000 =
      (some ⟨"AAPL", round2 (((207 : ℚ)/2 - 100) / 100 * 100), 207/2, 100, 61000000⟩,
        some 61000000) :=
  (c2_alert_emission "AAPL" [⟨0, 100⟩] none (207/2) 61000000).2.2.1 100
    (by norm_num [minuteOldPrice, minuteUs, List.find?]) (by norm_num) rfl

/-- C6, counterexample.  The claim says a `get_history` for an unknown
ticker and an unknown message type are each answered with an error
reply.  The handler silently ignores both: with `AAPL` the only known
ticker, a `get_history` for `FOO` produces no reply at all, and an
unknown message type produces no reply; only invalid JSON is answered
with an error. -/
theorem c6_counterexample :
    (handleClientMessage ⟨{0, 1}, fun _ => none⟩ [("AAPL", [⟨0, 100⟩])] 0
      (.getHistory (some "FOO"))).2 = []
  ∧ (handleClientMessage ⟨{0, 1}, fun _ => none⟩ [("AAPL", [⟨0, 100⟩])] 0 .other).2 = [] := by
  constructor
  · simp [handleClientMessage, histFind]
  · rfl

/-- C6, amended: message handling is total (never raises) and replies
only to the offending client; the client set is never changed and no
other client's subscription entry is touched; an error reply is sent
exactly for invalid JSON, while unknown message types — and, inside the
`get_history` branch, unknown or missing tickers — are silently ignored
with no reply and no state change. -/
theorem c6_message_errors (s : ServerState) (hist : List (String × List PricePoint))
    (c : Client) (m : InMessage) :
    (∀ p ∈ (handleClientMessage s hist c m).2, p.1 = c)
  ∧ (handleClientMessage s hist c m).1.clients = s.clients
  ∧ (∀ x, x ≠ c → (handleClientMessage s hist c m).1.subs x = s.subs x)
  ∧ ((∃ p ∈ (handleClientMessage s hist c m).2, ∃ txt, p.2 = OutMessage.errorMsg txt) ↔
      m = InMessage.invalidJson)
  ∧ (m = InMessage.other → handleClientMessage s hist c m = (s, [])) := by
  refine ⟨?_, ?_, handle_subs_other s hist c m, ?_, ?_⟩
  · cases m with
    | invalidJson => simp [handleClientMessage]
    | subscribe ts => simp [handleClientMessage]
    | unsubscribe ts => simp [handleClientMessage]
    | other => simp [handleClientMessage]
    | getHistory t? =>
      cases t? with
      | none => simp [handleClientMessage]
      | some t =>
        by_cases ht : t = ""
        · simp [handleClientMessage, ht]
        · cases hf : histFind hist t <;> simp [handleClientMessage, ht, hf]
  · cases m with
    | invalidJson => rfl
    | subscribe ts => rfl
    | unsubscribe ts => rfl
    | other => rfl
    | getHistory t? => rw [handle_state_eq_of_not_sub s hist c (.getHistory t?) rfl]
  · cases m with
    | invalidJson => simp [handleClientMessage]
    | subscribe ts => simp [handleClientMessage]
    | unsubscribe ts => simp [handleClientMessage]
    | other => simp [handleClientMessage]
    | getHistory t? =>
      cases t? with
      | none => simp [handleClientMessage]
      | some t =>
        by_cases ht : t = ""
        · simp [handleClientMessage, ht]
        · cases hf : histFind hist t <;> simp [handleClientMessage, ht, hf]
  · cases m with
    | invalidJson => intro h; exact InMessage.noConfusion h
    | subscribe ts => intro h; exact InMessage.noConfusion h
    | unsubscribe ts => intro h; exact InMessage.noConfusion h
    | other => intro _; rfl
    | getHistory t? => intro h; exact InMessage.noConfusion h

/-- C6, witness: handling one client's invalid JSON leaves another
client's (absent) subscription entry untouched. -/
theorem c6_message_errors_witness :
    (handleClientMessage ⟨{0, 1}, fun _ => none⟩ [] 0 InMessage.invalidJson).1.subs 1 = none := by
  have h := (c6_message_errors ⟨{0, 1}, fun _ => none⟩ [] 0 InMessage.invalidJson).2.2.1 1
    (by norm_num)
  rw [h]

/-- C7, confirmed: a client whose send fails during a broadcast pass is
afterwards absent from the active-client set, has no subscription map
entry, and is selected by no subsequent broadcast; clients whose sends
succeed (and clients that were not targeted) keep their membership and
their subscription entry unchanged.  The disconnected set is collected
against the pre-pass target predicate and removed only after the pass,
as in the code. -/
theorem c7_failed_client_removal (s : ServerState) (tt : Option (List String))
    (fails : List Client) (c : Client) :
    (c ∈ fails → receivesBroadcast s tt c = true →
      c ∉ (broadcastStep s tt fails).clients
      ∧ (broadcastStep s tt fails).subs c = none
      ∧ ∀ tt2, receivesBroadcast (broadcastStep s tt fails) tt2 c = false)
  ∧ (c ∉ fails →
      (c ∈ (broadcastStep s tt fails).clients ↔ c ∈ s.clients)
      ∧ (broadcastStep s tt fails).subs c = s.subs c)
  ∧ (receivesBroadcast s tt c = false →
      (c ∈ (broadcastStep s tt fails).clients ↔ c ∈ s.clients)
      ∧ (broadcastStep s tt fails).subs c = s.subs c) := by
  have hmem : ∀ x : Client, x ∈ fails.filter (fun a => receivesBroadcast s tt a) ↔
      x ∈ fails ∧ receivesBroadcast s tt x = true := by
    intro x
    simp [List.mem_filter]
  refine ⟨?_, ?_, ?_⟩
  · intro hcf hcr
    have hin : c ∈ fails.filter (fun a => receivesBroadcast s tt a) := (hmem c).mpr ⟨hcf, hcr⟩
    have h1 : c ∉ (broadcastStep s tt fails).clients := by
      unfold broadcastStep
      rw [foldl_unregister_clients]
      rintro ⟨-, hno⟩
      exact hno hin
    have h2 : (broadcastStep s tt fails).subs c = none := by
      unfold broadcastStep
      rw [foldl_unregister_subs, if_pos hin]
    exact ⟨h1, h2, fun tt2 => receivesBroadcast_eq_false _ tt2 c h1 h2⟩
  · intro hcf
    have hnin : c ∉ fails.filter (fun a => receivesBroadcast s tt a) :=
      fun h => hcf ((hmem c).mp h).1
    constructor
    · unfold broadcastStep
      rw [foldl_unregister_clients]
      simp [hnin]
    · unfold broadcastStep
      rw [foldl_unregister_subs, if_neg hnin]
  · intro hcr
    have hnin : c ∉ fails.filter (fun a => receivesBroadcast s tt a) := by
      intro h
      have hx := ((hmem c).mp h).2
      rw [hcr] at hx
      simp at hx
    constructor
    · unfold broadcastStep
      rw [foldl_unregister_clients]
      simp [hnin]
    · unfold broadcastStep
      rw [foldl_unregister_subs, if_neg hnin]

/-- C7, witness: a targeted client (empty subscription entry, so it
receives the scoped alert broadcast) whose send fails is removed from
the client set. -/
theorem c7_failed_client_removal_witness :
    (0 : Client) ∉ (broadcastStep ⟨{0, 1}, fun c => if c = 0 then some ∅ else none⟩
      (some ["AAPL"]) [0]).clients := by
  have h := (c7_failed_client_removal ⟨{0, 1}, fun c => if c = 0 then some ∅ else none⟩
    (some ["AAPL"]) [0] 0).1 (by norm_num) (by norm_num [receivesBroadcast])
  exact h.1

/-- C8, counterexample.  The claim says subscribe of `{T}` followed by
unsubscribe of `{T}` restores the registry exactly.  If the client is
already subscribed to `AAPL`, the round trip deletes `AAPL` from its
entry: the entry goes from `{"AAPL"}` to the empty set. -/
theorem c8_counterexample :
    ((handleClientMessage (handleClientMessage
        ⟨{0}, fun c => if c = 0 then some {"AAPL"} else none⟩ [] 0
        (.subscribe ["AAPL"])).1 [] 0 (.unsubscribe ["AAPL"])).1).subs 0 = some ∅
  ∧ (⟨{0}, fun c => if c = 0 then some {"AAPL"} else none⟩ : ServerState).subs 0 =
      some {"AAPL"}
  ∧ some (∅ : Finset String) ≠ some ({"AAPL"} : Finset String) := by
  refine ⟨?_, rfl, by decide⟩
  simp [handleClientMessage, subsSubscribe, subsUnsubscribe]

/-- C8, amended: the subscribe/unsubscribe round trip for ticker `tk`
restores every client's subscription entry exactly, provided the client
already has an entry and `tk` is not in it.  (Without an entry the
round trip leaves behind an empty entry; with `tk` already present the
round trip removes it, as the counterexample shows.) -/
theorem c8_subscribe_roundtrip (s : ServerState) (hist : List (String × List PricePoint))
    (c : Client) (tk : String) (e : Finset String) (he : s.subs c = some e) (htk : tk ∉ e) :
    ∀ x, ((handleClientMessage (handleClientMessage s hist c (.subscribe [tk])).1 hist c
        (.unsubscribe [tk])).1).subs x = s.subs x := by
  intro x
  simp only [handleClientMessage, subsUnsubscribe, subsSubscribe]
  by_cases hx : x = c
  · subst hx
    simp only [if_pos rfl, he, if_true, Option.getD_some]
    have hset : (e ∪ [tk].toFinset) \ [tk].toFinset = e := by
      ext a
      simp only [List.toFinset_cons, List.toFinset_nil, insert_emptyc_eq, Finset.mem_sdiff,
        Finset.mem_union, Finset.mem_singleton]
      constructor
      · rintro ⟨ha | ha, hne⟩
        · exact ha
        · exact absurd ha hne
      · intro ha
        exact ⟨Or.inl ha, fun hEq => htk (hEq ▸ ha)⟩
    rw [hset]
  · simp [hx]

/-- C8, witness: a client with an empty entry regains exactly that
empty entry after the round trip. -/
theorem c8_subscribe_roundtrip_witness :
    ((handleClientMessage (handleClientMessage
        ⟨{0}, fun c => if c = 0 then some ∅ else none⟩ [] 0
        (.subscribe ["AAPL"])).1 [] 0 (.unsubscribe ["AAPL"])).1).subs 0 = some ∅ := by
  have h := c8_subscribe_roundtrip ⟨{0}, fun c => if c = 0 then some ∅ else none⟩ [] 0
    "AAPL" ∅ rfl (by decide) 0
  rw [h]
  rfl

/-- C9, confirmed: a subscription map entry for a client exists only if
the server processed a subscribe or unsubscribe message from that
client — running any event trace from the initial state in which client
`c` sent neither leaves `c` without an entry; and a connect step by
itself puts the client in the active set, sends it the current-price
snapshot, and touches no subscription entry. -/
theorem c9_subscription_provenance (hist : List (String × List PricePoint))
    (tr : List Event) (c : Client)
    (h : ∀ m, Event.message c m ∈ tr → isSubMsg m = false) :
    (runTrace hist tr).subs c = none
  ∧ (∀ s : ServerState, c ∈ (registerClient s c).1.clients
      ∧ (∀ x, (registerClient s c).1.subs x = s.subs x)
      ∧ (c, OutMessage.currentPrices) ∈ (registerClient s c).2) := by
  constructor
  · exact runTrace_subs_none_aux hist tr initState c rfl h
  · intro s
    refine ⟨Finset.mem_insert_self c s.clients, fun x => rfl, ?_⟩
    simp [registerClient]

/-- C9, witness: after connecting and sending only a history request,
client 0 has no subscription entry. -/
theorem c9_subscription_provenance_witness :
    (runTrace [] [Event.connect 0, Event.message 0 (InMessage.getHistory none)]).subs 0 =
      none := by
  have h := c9_subscription_provenance [] [Event.connect 0,
    Event.message 0 (InMessage.getHistory none)] 0 ?_
  · exact h.1
  · intro m hm
    simp only [List.mem_cons, List.not_mem_nil, or_false] at hm
    rcases hm with hm | hm
    · exact Event.noConfusion hm
    · injection hm with h1 h2
      rw [h2]
      rfl

/-- C10, confirmed: the `price_history` reply for a known ticker whose
buffer holds n points contains exactly min(n, 20) entries — the last
entries of the annotated buffer, in chronological order; entry i+1 of
the annotated buffer carries the percent change against buffer point i,
and the oldest buffer point's change is computed against itself,
yielding 0.  The cap of 20 is a literal of the handler, not a request
parameter. -/
theorem c10_history_reply (buf : List PricePoint) :
    (historyReply buf).length = min buf.length 20
  ∧ (∀ i, (historyReply buf).get? i = (annotateHistory buf).get? (buf.length - 20 + i))
  ∧ (∀ a, buf.get? 0 = some a → (annotateHistory buf).get? 0 = some ⟨a.ts, a.price, 0⟩)
  ∧ (∀ i a b, buf.get? i = some a → buf.get? (i + 1) = some b →
      (annotateHistory buf).get? (i + 1) =
        some ⟨b.ts, b.price, (b.price - a.price) / a.price * 100⟩) := by
  refine ⟨?_, ?_, ?_, ?_⟩
  · rw [historyReply, List.length_drop, annotateHistory_length]
    omega
  · intro i
    rw [historyReply, List.get?_drop, annotateHistory_length]
  · intro a ha
    cases buf with
    | nil => simp at ha
    | cons pd rest =>
      simp only [List.get?_cons_zero, Option.some.injEq] at ha
      subst ha
      rw [annotateHistory]
      have h0 := annotateFrom_get?_zero pd.price (pd :: rest) pd rfl
      rw [h0]
      simp
  · intro i a b ha hb
    cases buf with
    | nil => simp at ha
    | cons pd rest =>
      rw [annotateHistory]
      exact annotateFrom_get?_succ (pd :: rest) pd.price i a b ha hb

/-- C10, witness: on a two-point buffer [100 at t0, 50 at t1] the
second reply entry carries a change of -50% against the first point. -/
theorem c10_history_reply_witness :
    (annotateHistory [⟨0, 100⟩, ⟨1, 50⟩]).get? 1 = some ⟨1, 50, -50⟩ := by
  have h := (c10_history_reply [⟨0, 100⟩, ⟨1, 50⟩]).2.2.2 0 ⟨0, 100⟩ ⟨1, 50⟩ rfl rfl
  rw [h]
  norm_num
